import Mathlib

/-!
Verification of the mark42 turn-boundary change-tracking hooks.

The Python sources are shallowly embedded as pure Lean functions:

* `src/hooks/post-tool-use.py` — Event Recorder: `should_track`,
  `extract_files_from_bash`, `handle_git_commit`, the dirty-file
  merge (`loadExisting` / `mergeDirty`) and `recorderMain`.
* `src/hooks/stop.py` — Turn Gate: `gatherFiles`, `consumedEvents`,
  `runStop`.

Filesystem state is passed explicitly: the dirty-files store is the
list of its lines, the session-event log is the list of its (already
parsed) events, and the stop latch is a boolean field of the state.
Subprocess calls are passed as explicit outcome values.
-/

set_option autoImplicit false

/-- Characters that Python `str.strip()` removes (ASCII whitespace). -/
def isPyWs (c : Char) : Bool :=
  c = ' ' || c = Char.ofNat 9 || c = Char.ofNat 10 || c = Char.ofNat 13 ||
  c = Char.ofNat 11 || c = Char.ofNat 12

/-- Drop leading whitespace characters. -/
def dropWsHead : List Char → List Char
  | [] => []
  | c :: rest => if isPyWs c then dropWsHead rest else c :: rest

/-- Model of Python `str.strip()`: remove whitespace at both ends. -/
def pyStrip (s : String) : String :=
  String.mk ((dropWsHead ((dropWsHead s.data).reverse)).reverse)

/-- Does the character list begin with the given run of characters? -/
def chStarts : List Char → List Char → Bool
  | _, [] => true
  | [], _ :: _ => false
  | a :: l1, b :: l2 => a = b && chStarts l1 l2

/-- Model of Python `hay.startswith(needle)` on character lists in `strStarts`. -/
def strStarts (s t : String) : Bool :=
  chStarts s.data t.data

/-- Does the haystack contain the needle as a contiguous run? -/
def chContains (needle : List Char) : List Char → Bool
  | [] => chStarts [] needle
  | c :: rest => chStarts (c :: rest) needle || chContains needle rest

/-- Model of Python `needle in hay` on strings. -/
def strIn (needle hay : String) : Bool :=
  chContains needle.data hay.data

/-- Split a character list at every occurrence of the separator character. -/
def splitCharAux (sep : Char) : List Char → List Char → List (List Char)
  | cur, [] => [cur.reverse]
  | cur, d :: rest =>
    if d = sep then cur.reverse :: splitCharAux sep [] rest
    else splitCharAux sep (d :: cur) rest

/-- Model of Python `str.split(sep)` for a one-character separator. -/
def pySplitChar (sep : Char) (s : String) : List String :=
  (splitCharAux sep [] s.data).map String.mk

/-- Model of Python `s.split(" ", 1)`: the text before the first space and,
when a space exists, the remainder after it. -/
def split1Aux : List Char → List Char → String × Option String
  | acc, [] => (String.mk acc.reverse, none)
  | acc, c :: rest =>
    if c = ' ' then (String.mk acc.reverse, some (String.mk rest))
    else split1Aux (c :: acc) rest

/-- Model of Python `s.split(" ", 1)` packaged on strings. -/
def pySplit1 (s : String) : String × Option String :=
  split1Aux [] s.data

/-- Join a list of strings with a separator, as Python `sep.join(xs)`. -/
def joinWith (sep : String) : List String → String
  | [] => ""
  | [x] => x
  | x :: y :: rest => x ++ sep ++ joinWith sep (y :: rest)

/-- Model of Python slicing `s[:200]` (the first 200 characters). -/
def truncate200 (s : String) : String :=
  String.mk (s.data.take 200)

/-- An absolute POSIX path starts with a slash (`PurePath.is_absolute`). -/
def isAbsolutePath (p : String) : Bool :=
  strStarts p "/"

/-- The components of a path as `pathlib` normalizes them: split on `/`,
dropping empty components and `.` components (the root is tracked
separately by `isAbsolutePath`). -/
def pathParts (p : String) : List String :=
  (pySplitChar '/' p).filter (fun s => s ≠ "" && s ≠ ".")

/-- Model of `pathlib.Path(p).name`: the final component, `""` for the root. -/
def pathName (p : String) : String :=
  ((pathParts p).getLast?).getD ""

/-- Is the first list an initial run of the second (component-wise)? -/
def listStarts : List String → List String → Bool
  | [], _ => true
  | _ :: _, [] => false
  | a :: l1, b :: l2 => a = b && listStarts l1 l2

/-- Normalize path components as `Path.resolve()` does for an absolute path
with no symlinks: drop `.`/empties (already done by `pathParts`) and let
`..` pop the previous component (at the root `..` stays at the root).
The first argument is the reversed stack of kept components. -/
def normSegs : List String → List String → List String
  | acc, [] => acc.reverse
  | acc, s :: rest =>
    if s = ".." then normSegs acc.tail rest
    else normSegs (s :: acc) rest

/-- Model of `str(Path(p).resolve())` for an absolute input path.  The hooks
only resolve paths already joined to the absolute `CLAUDE_PROJECT_DIR`. -/
def resolvePath (p : String) : String :=
  let segs := normSegs [] (pathParts p)
  if segs = [] then "/" else "/" ++ joinWith "/" segs

/-- Model of `Path(a) / b`: an absolute right operand replaces the left. -/
def joinPath (a b : String) : String :=
  if isAbsolutePath b then b else a ++ "/" ++ b

/-! ## Dirty-set store (src/hooks/post-tool-use.py, lines 215-237)

The store file holds one line per tracked path, optionally suffixed with a
bracketed commit context.  In memory the code builds a Python dict
`path -> line`; we embed it as an association list that preserves
insertion order and updates in place, exactly like a Python dict. -/

/-- Characters of a line before the first occurrence of the run `" ["`. -/
def lineKeyChars : List Char → List Char
  | [] => []
  | c :: rest =>
    if chStarts (c :: rest) [' ', '['] then []
    else c :: lineKeyChars rest

/-- Model of `line.split(" [")[0] if " [" in line else line`: the dedup key
of a stored dirty-file line. -/
def parseLinePath (line : String) : String :=
  if strIn " [" line then String.mk (lineKeyChars line.data)
  else line

/-- Lookup in a Python-dict-like association list. -/
def dlookup (k : String) : List (String × String) → Option String
  | [] => none
  | (k1, v1) :: rest => if k1 = k then some v1 else dlookup k rest

/-- Python dict assignment `d[k] = v`: update in place if the key exists,
otherwise append at the end (dicts preserve insertion order). -/
def dinsert (k v : String) : List (String × String) → List (String × String)
  | [] => [(k, v)]
  | (k1, v1) :: rest =>
    if k1 = k then (k1, v) :: rest else (k1, v1) :: dinsert k v rest

/-- The keys of the association list, in order. -/
def dkeys (d : List (String × String)) : List String :=
  d.map Prod.fst

/-- Loading loop of the merge (lines 218-226): strip each line, skip blanks,
and key each surviving line by its parsed path (later lines win). -/
def loadAux (d : List (String × String)) : List String → List (String × String)
  | [] => d
  | line :: rest =>
    let l := pyStrip line
    if l = "" then loadAux d rest
    else loadAux (dinsert (parseLinePath l) l d) rest

/-- Parse the dirty-files store from its lines into the in-memory dict. -/
def loadExisting (lines : List String) : List (String × String) :=
  loadAux [] lines

/-- Commit context attached to dirty entries produced by a git commit. -/
structure CommitContext where
  hash : String
  message : String
deriving DecidableEq

/-- The stored line for a path carrying commit context
(lines 230-231: the path followed by a bracketed `hash: message` suffix). -/
def formatLine (fp : String) (c : CommitContext) : String :=
  fp ++ " [" ++ c.hash ++ ": " ++ c.message ++ "]"

/-- One iteration of the merge loop (lines 228-233): a write with commit
context always assigns; a context-less write assigns only when the path
is not yet present. -/
def mergeOne (ctx : Option CommitContext) (d : List (String × String))
    (fp : String) : List (String × String) :=
  match ctx with
  | some c => dinsert fp (formatLine fp c) d
  | none => if (dlookup fp d).isSome then d else dinsert fp fp d

/-- The merge loop over all trackable paths. -/
def mergeAux (ctx : Option CommitContext) (d : List (String × String)) :
    List String → List (String × String)
  | [] => d
  | fp :: rest => mergeAux ctx (mergeOne ctx d fp) rest

/-- Merge the trackable paths of one invocation into the loaded store. -/
def mergeDirty (d : List (String × String)) (trackable : List String)
    (ctx : Option CommitContext) : List (String × String) :=
  mergeAux ctx d trackable

/-! ### Association-list lemmas -/

@[simp] theorem dkeys_nil : dkeys [] = [] := rfl

@[simp] theorem dkeys_cons (p : String × String) (d : List (String × String)) :
    dkeys (p :: d) = p.1 :: dkeys d := rfl

theorem dlookup_dinsert_self (k v : String) (d : List (String × String)) :
    dlookup k (dinsert k v d) = some v := by
  induction d with
  | nil => simp [dinsert, dlookup]
  | cons p rest ih =>
    obtain ⟨k1, v1⟩ := p
    by_cases h : k1 = k
    · simp [dinsert, h, dlookup]
    · simp [dinsert, h, dlookup, ih]

theorem dlookup_dinsert_ne (k k1 v : String) (d : List (String × String))
    (h : ¬ k = k1) : dlookup k1 (dinsert k v d) = dlookup k1 d := by
  have h4 : ¬ k1 = k := fun hh => h hh.symm
  induction d with
  | nil => simp [dinsert, dlookup, h]
  | cons p rest ih =>
    obtain ⟨k2, v2⟩ := p
    by_cases h2 : k2 = k
    · subst h2
      simp [dinsert, dlookup, h]
    · by_cases h3 : k2 = k1
      · subst h3
        simp [dinsert, dlookup, h4]
      · simp [dinsert, h2, dlookup, h3, ih]

theorem mem_dkeys_dinsert (k v x : String) (d : List (String × String))
    (hx : x ∈ dkeys (dinsert k v d)) : x ∈ dkeys d ∨ x = k := by
  induction d with
  | nil =>
    right
    simpa [dinsert] using hx
  | cons p rest ih =>
    obtain ⟨k1, v1⟩ := p
    by_cases h : k1 = k
    · subst h
      simp [dinsert] at hx
      rcases hx with h1 | h1
      · exact Or.inr h1
      · exact Or.inl (by simp [h1])
    · simp [dinsert, h] at hx
      rcases hx with h1 | h1
      · exact Or.inl (by simp [h1])
      · rcases ih h1 with h2 | h2
        · exact Or.inl (by simp [h2])
        · exact Or.inr h2

theorem nodup_dkeys_dinsert (k v : String) (d : List (String × String))
    (hd : (dkeys d).Nodup) : (dkeys (dinsert k v d)).Nodup := by
  induction d with
  | nil => simp [dinsert]
  | cons p rest ih =>
    obtain ⟨k1, v1⟩ := p
    simp only [dkeys_cons, List.nodup_cons] at hd
    by_cases h : k1 = k
    · simp only [dinsert, if_pos h, dkeys_cons, List.nodup_cons]
      exact hd
    · have h1 : k1 ∉ dkeys (dinsert k v rest) := by
        intro hmem
        rcases mem_dkeys_dinsert k v k1 rest hmem with h2 | h2
        · exact hd.1 h2
        · exact h h2
      simp only [dinsert, if_neg h, dkeys_cons, List.nodup_cons]
      exact ⟨h1, ih hd.2⟩

theorem nodup_dkeys_mergeOne (ctx : Option CommitContext)
    (d : List (String × String)) (fp : String)
    (hd : (dkeys d).Nodup) : (dkeys (mergeOne ctx d fp)).Nodup := by
  cases ctx with
  | some c => exact nodup_dkeys_dinsert fp (formatLine fp c) d hd
  | none =>
    simp only [mergeOne]
    by_cases h : (dlookup fp d).isSome = true
    · simpa [h] using hd
    · simp only [Bool.not_eq_true] at h
      simpa [h] using nodup_dkeys_dinsert fp fp d hd

theorem nodup_dkeys_mergeAux (ctx : Option CommitContext) (t : List String)
    (d : List (String × String))
    (hd : (dkeys d).Nodup) : (dkeys (mergeAux ctx d t)).Nodup := by
  induction t generalizing d with
  | nil => simpa [mergeAux] using hd
  | cons fp rest ih =>
    simp only [mergeAux]
    exact ih _ (nodup_dkeys_mergeOne ctx d fp hd)

theorem nodup_dkeys_loadAux (lines : List String)
    (d : List (String × String))
    (hd : (dkeys d).Nodup) : (dkeys (loadAux d lines)).Nodup := by
  induction lines generalizing d with
  | nil => simpa [loadAux] using hd
  | cons line rest ih =>
    simp only [loadAux]
    by_cases h : pyStrip line = ""
    · simpa [h] using ih _ hd
    · simpa [h] using
        ih _ (nodup_dkeys_dinsert (parseLinePath (pyStrip line)) (pyStrip line) d hd)

theorem nodup_dkeys_loadExisting (lines : List String) :
    (dkeys (loadExisting lines)).Nodup :=
  nodup_dkeys_loadAux lines [] (by simp)

theorem dlookup_mergeOne_none (d : List (String × String)) (fp fp2 v : String)
    (hv : dlookup fp d = some v) :
    dlookup fp (mergeOne none d fp2) = some v := by
  by_cases h : fp2 = fp
  · subst h
    simp [mergeOne, hv]
  · simp only [mergeOne]
    by_cases h2 : (dlookup fp2 d).isSome = true
    · simpa [h2] using hv
    · simp only [Bool.not_eq_true] at h2
      simp only [h2, Bool.false_eq_true, if_false]
      rw [dlookup_dinsert_ne fp2 fp fp2 d h]
      exact hv

theorem dlookup_mergeAux_none (t : List String) (d : List (String × String))
    (fp v : String) (hv : dlookup fp d = some v) :
    dlookup fp (mergeAux none d t) = some v := by
  induction t generalizing d with
  | nil => simpa [mergeAux] using hv
  | cons fp2 rest ih =>
    simp only [mergeAux]
    exact ih _ (dlookup_mergeOne_none d fp fp2 v hv)

theorem dlookup_mergeOne_some (d : List (String × String)) (c : CommitContext)
    (fp fp2 : String) (hv : dlookup fp d = some (formatLine fp c)) :
    dlookup fp (mergeOne (some c) d fp2) = some (formatLine fp c) := by
  by_cases h : fp2 = fp
  · subst h
    simp [mergeOne, dlookup_dinsert_self]
  · simp only [mergeOne]
    rw [dlookup_dinsert_ne fp2 fp (formatLine fp2 c) d h]
    exact hv

theorem dlookup_mergeAux_some_keep (t : List String)
    (d : List (String × String)) (c : CommitContext) (fp : String)
    (hv : dlookup fp d = some (formatLine fp c)) :
    dlookup fp (mergeAux (some c) d t) = some (formatLine fp c) := by
  induction t generalizing d with
  | nil => simpa [mergeAux] using hv
  | cons fp2 rest ih =>
    simp only [mergeAux]
    exact ih _ (dlookup_mergeOne_some d c fp fp2 hv)

theorem dlookup_mergeAux_some (t : List String)
    (d : List (String × String)) (c : CommitContext) (fp : String)
    (hfp : fp ∈ t) :
    dlookup fp (mergeAux (some c) d t) = some (formatLine fp c) := by
  induction t generalizing d with
  | nil => cases hfp
  | cons fp2 rest ih =>
    simp only [mergeAux]
    rcases List.mem_cons.mp hfp with h | h
    · subst h
      apply dlookup_mergeAux_some_keep
      simp [mergeOne, dlookup_dinsert_self]
    · exact ih _ h

/-- C3 — every merge into the dirty-set store keeps at most one live entry
per path; a write carrying commit context sets the context line for its
path, and a context-less write leaves every already present entry (with or
without context) untouched, so attached context persists until the set is
cleared. -/
theorem merge_preserves_invariant (lines trackable : List String)
    (ctx : Option CommitContext) :
    (dkeys (mergeDirty (loadExisting lines) trackable ctx)).Nodup ∧
    (∀ c fp, ctx = some c → fp ∈ trackable →
      dlookup fp (mergeDirty (loadExisting lines) trackable ctx) =
        some (formatLine fp c)) ∧
    (∀ fp v, ctx = none → dlookup fp (loadExisting lines) = some v →
      dlookup fp (mergeDirty (loadExisting lines) trackable ctx) = some v) := by
  refine ⟨?_, ?_, ?_⟩
  · exact nodup_dkeys_mergeAux ctx trackable _ (nodup_dkeys_loadExisting lines)
  · intro c fp hc hfp
    subst hc
    exact dlookup_mergeAux_some trackable _ c fp hfp
  · intro fp v hc hv
    subst hc
    exact dlookup_mergeAux_none trackable _ fp v hv

/-- Witness for C3 at concrete inputs: a context-less merge of a fresh and an
existing path keeps keys unique and leaves the stored context line of
another path intact, and a commit-context merge attaches the context. -/
theorem merge_preserves_invariant_w :
    (dkeys (mergeDirty (loadExisting ["/p/a.txt", "/p/b.txt [abc: fix]"])
      ["/p/a.txt", "/p/c.txt"] none)).Nodup ∧
    dlookup "/p/b.txt" (mergeDirty (loadExisting ["/p/a.txt", "/p/b.txt [abc: fix]"])
      ["/p/a.txt", "/p/c.txt"] none) = some "/p/b.txt [abc: fix]" ∧
    dlookup "/p/a.txt" (mergeDirty (loadExisting ["/p/a.txt"]) ["/p/a.txt"]
      (some ⟨"abc", "fix"⟩)) = some (formatLine "/p/a.txt" ⟨"abc", "fix"⟩) :=
  ⟨(merge_preserves_invariant ["/p/a.txt", "/p/b.txt [abc: fix]"]
      ["/p/a.txt", "/p/c.txt"] none).1,
   (merge_preserves_invariant ["/p/a.txt", "/p/b.txt [abc: fix]"]
      ["/p/a.txt", "/p/c.txt"] none).2.2 "/p/b.txt" "/p/b.txt [abc: fix]" rfl
      (by decide),
   (merge_preserves_invariant ["/p/a.txt"] ["/p/a.txt"]
      (some ⟨"abc", "fix"⟩)).2.1 ⟨"abc", "fix"⟩ "/p/a.txt" rfl (by decide)⟩

/-! ## Shell tokenizing (model of Python `shlex.split`, POSIX mode)

`extract_files_from_bash` calls `shlex.split(command)`; a `ValueError`
(unterminated quote or trailing escape) is caught and yields no entries.
The tokenizer is modelled one character per step: single quotes are
literal runs, double quotes group with backslash escaping the quote and
the backslash itself, a backslash outside quotes escapes one character,
and unquoted whitespace separates tokens. -/

/-- The single-quote character. -/
def squoteCh : Char := Char.ofNat 39

/-- The double-quote character. -/
def dquoteCh : Char := Char.ofNat 34

/-- The backslash character. -/
def bslashCh : Char := Char.ofNat 92

/-- Whitespace separating shell tokens (space, tab, LF, CR). -/
def isShWs (c : Char) : Bool :=
  c = ' ' || c = Char.ofNat 9 || c = Char.ofNat 10 || c = Char.ofNat 13

/-- Tokenizer state: outside quotes, inside single or double quotes, or
immediately after an escaping backslash (outside or inside double quotes). -/
inductive ShMode where
  | normal
  | single
  | double
  | escNormal
  | escDouble
deriving DecidableEq

/-- Finish the current token, if one is open (characters held reversed). -/
def shFlush (cur : Option (List Char)) (acc : List String) : List String :=
  match cur with
  | none => acc
  | some t => acc ++ [String.mk t.reverse]

/-- One-character-per-step shell tokenizer.  `none` models the `ValueError`
Python raises at end of input inside a quote or after a dangling escape. -/
def shlexGo : List Char → ShMode → Option (List Char) → List String →
    Option (List String)
  | [], .normal, cur, acc => some (shFlush cur acc)
  | [], _, _, _ => none
  | c :: rest, .normal, cur, acc =>
    if isShWs c then shlexGo rest .normal none (shFlush cur acc)
    else if c = squoteCh then shlexGo rest .single (some (cur.getD [])) acc
    else if c = dquoteCh then shlexGo rest .double (some (cur.getD [])) acc
    else if c = bslashCh then shlexGo rest .escNormal (some (cur.getD [])) acc
    else shlexGo rest .normal (some (c :: cur.getD [])) acc
  | c :: rest, .single, cur, acc =>
    if c = squoteCh then shlexGo rest .normal cur acc
    else shlexGo rest .single (some (c :: cur.getD [])) acc
  | c :: rest, .double, cur, acc =>
    if c = dquoteCh then shlexGo rest .normal cur acc
    else if c = bslashCh then shlexGo rest .escDouble cur acc
    else shlexGo rest .double (some (c :: cur.getD [])) acc
  | c :: rest, .escNormal, cur, acc =>
    shlexGo rest .normal (some (c :: cur.getD [])) acc
  | c :: rest, .escDouble, cur, acc =>
    if c = dquoteCh || c = bslashCh then
      shlexGo rest .double (some (c :: cur.getD [])) acc
    else shlexGo rest .double (some (c :: bslashCh :: cur.getD [])) acc

/-- Model of `shlex.split(command)`; `none` stands for `ValueError`. -/
def shlexSplit (s : String) : Option (List String) :=
  shlexGo s.data .normal none []

/-! ## Bash command classification (src/hooks/post-tool-use.py, lines 88-162) -/

/-- Line 108: tokens treated as shell control operators. -/
def shellOperators : List String :=
  ["&&", "||", ";", "|", ">", ">>", "<", "2>", "2>&1"]

/-- Lines 95-104: command text beginnings that are skipped entirely. -/
def skipPrefixes : List String :=
  ["ls", "cat", "echo", "grep", "find", "head", "tail", "less", "more",
   "cd", "pwd", "which", "whereis", "type", "file", "stat", "wc",
   "git status", "git log", "git diff", "git show", "git branch",
   "git fetch", "git pull", "git push", "git clone", "git checkout",
   "git stash", "git remote", "git tag", "git rev-parse",
   "npm ", "yarn ", "pnpm ", "node ", "python", "pip ", "uv ",
   "cargo ", "go ", "make", "cmake", "docker ", "kubectl ",
   "curl ", "wget ", "ssh ", "scp ", "rsync "]

/-- Loop of the `rm` / `git rm` branches (lines 118-130): collect every
non-flag token, stopping at the first shell control operator. -/
def rmExtract : List String → List String
  | [] => []
  | t :: rest =>
    if shellOperators.contains t then []
    else if strStarts t "-" then rmExtract rest
    else t :: rmExtract rest

/-- Loop of the `mv` / `git mv` branches (lines 132-146): only the first
non-flag token before any control operator. -/
def mvExtract : List String → List String
  | [] => []
  | t :: rest =>
    if shellOperators.contains t then []
    else if strStarts t "-" then mvExtract rest
    else [t]

/-- Model of `extract_files_from_bash(command, project_dir)`. -/
def extract_files_from_bash (command projectDir : String) : List String :=
  if command = "" then []
  else
    let cmd0 := pyStrip command
    if skipPrefixes.any (fun p => strStarts cmd0 p) then []
    else
      match shlexSplit cmd0 with
      | none => []
      | some [] => []
      | some (cmd :: args) =>
        let files :=
          if cmd = "rm" then rmExtract args
          else if cmd = "git" then
            match args with
            | "rm" :: rest => rmExtract rest
            | "mv" :: a1 :: rest => mvExtract (a1 :: rest)
            | _ => []
          else if cmd = "mv" then
            if 2 ≤ args.length then mvExtract args else []
          else if cmd = "unlink" then
            match args with
            | [] => []
            | t :: _ => if shellOperators.contains t then [] else [t]
          else []
        files.map (fun f => resolvePath (joinPath projectDir f))

/-- Does `Path(p).relative_to(root)` succeed, i.e. is `p` inside `root`?
(Equal absoluteness and the root's components an initial run of `p`'s.) -/
def insideRoot (p root : String) : Bool :=
  (isAbsolutePath p == isAbsolutePath root)
    && listStarts (pathParts root) (pathParts p)

/-- Model of `should_track(file_path, project_dir)` (lines 68-85): inside
the project root (`relative_to` must succeed, else `ValueError` → False),
first relative segment not the plugin state directory `.claude`, base
name not `CLAUDE.md`. -/
def should_track (file_path projectDir : String) : Bool :=
  if insideRoot file_path projectDir then
    (match (pathParts file_path).drop (pathParts projectDir).length with
     | [] => true
     | seg :: _ => seg != ".claude")
    && pathName file_path != "CLAUDE.md"
  else false

/-! ## Git commit handling (src/hooks/post-tool-use.py, lines 35-65)

Each `subprocess.run` call is passed in as an outcome: a captured stdout
on success, a captured non-zero exit, or a raised exception
(`FileNotFoundError` when git is absent, or `TimeoutExpired`).  The
function body has no `try`/`except`, so a raised outcome propagates, which
the embedding records as `Except.error`. -/

/-- Outcome of one `subprocess.run` invocation. -/
inductive ProcResult where
  | success (stdout : String)
  | failure
  | raised
deriving DecidableEq

/-- The `timeout` argument the two git `subprocess.run` calls pass
(lines 40-45 and 53-58): no timeout argument appears, so the calls are
unbounded (`subprocess.run` defaults to `timeout=None`). -/
def gitCallTimeout : Option Nat := none

/-- Generic test that an `Except` computation did not raise. -/
def isOkE {α β : Type} : Except α β → Bool
  | .ok _ => true
  | .error _ => false

/-- Model of `handle_git_commit(project_dir)` over the two git call
outcomes (`git log -1` then `git diff-tree`). -/
def handle_git_commit (projectDir : String) (logCall diffCall : ProcResult) :
    Except Unit (List String × Option CommitContext) :=
  match logCall with
  | .raised => .error ()
  | .failure => .ok ([], none)
  | .success out =>
    let parts := pySplit1 (pyStrip out)
    let ctx : CommitContext := ⟨parts.1, parts.2.getD ""⟩
    match diffCall with
    | .raised => .error ()
    | .failure => .ok ([], some ctx)
    | .success out2 =>
      let files := ((pySplitChar (Char.ofNat 10) (pyStrip out2)).map pyStrip).filter
        (fun f => f != "")
      .ok (files.map (fun f => resolvePath (joinPath projectDir f)), some ctx)

/-! ## Event Recorder main (src/hooks/post-tool-use.py, lines 165-252)

The invocation is modelled by the parsed stdin fields (`tool_name`,
`tool_input.command`, `tool_input.file_path`, each defaulting to `""`),
the configured trigger mode, the two git call outcomes, and the current
dirty-file lines.  The result is the new in-memory dirty store (whose
values are exactly the lines written back; on a no-op return the file is
left untouched and the parsed content is returned unchanged) and the
session event appended, if any (`none` models the early returns that
skip the event write).  The timestamp is passed in for
`datetime.datetime.now`. -/

/-- A session-events log record (the JSON object written per line). -/
structure SessionEvent where
  toolName : String
  timestamp : String
  filePath : Option String := none
  command : Option String := none
deriving DecidableEq

/-- Classification (lines 191-206): which paths one invocation yields, and
the commit context when the invocation was a commit event. -/
def classifyFiles (pd tn command fp : String) (lc dc : ProcResult)
    (isGitCommit : Bool) : Except Unit (List String × Option CommitContext) :=
  if isGitCommit then handle_git_commit pd lc dc
  else if tn = "Edit" || tn = "Write" then
    .ok (if fp = "" then [] else [fp], none)
  else if tn = "Bash" then .ok (extract_files_from_bash command pd, none)
  else if tn = "" then .ok (if fp = "" then [] else [fp], none)
  else .ok ([], none)

/-- The dirty store after the persistence tail of `main` (lines 208-237):
the early returns leave the store as loaded, otherwise the trackable
paths are merged in. -/
def recorderStore (pd : String) (dirty : List String)
    (fc : List String × Option CommitContext) : List (String × String) :=
  if fc.1 = [] then loadExisting dirty
  else
    let trackable := fc.1.filter (fun f => should_track f pd)
    if trackable = [] then loadExisting dirty
    else mergeDirty (loadExisting dirty) trackable fc.2

/-- The session event appended by the tail of `main` (lines 208-249):
`none` on the early returns (which skip the event write entirely),
otherwise exactly one event carrying the tool name, the timestamp, the
first tracked path for Edit/Write, and the command truncated to 200
characters for Bash. -/
def recorderEvent (pd tn command ts : String)
    (fc : List String × Option CommitContext) : Option SessionEvent :=
  if fc.1 = [] then none
  else
    let trackable := fc.1.filter (fun f => should_track f pd)
    if trackable = [] then none
    else
      some { toolName := tn, timestamp := ts,
             filePath := if tn = "Edit" || tn = "Write" then trackable.head?
                         else none,
             command := if tn = "Bash" && !(command = "") then
                          some (truncate200 command)
                        else none }

/-- Persistence tail of `main` as a pair: resulting store and appended event. -/
def recorderCore (pd tn command ts : String) (dirty : List String)
    (fc : List String × Option CommitContext) :
    List (String × String) × Option SessionEvent :=
  (recorderStore pd dirty fc, recorderEvent pd tn command ts fc)

/-- The command text `main` works with (line 185): the stripped Bash
command, or `""` for any other tool. -/
def recorderCommand (tn rawCmd : String) : String :=
  if tn = "Bash" then pyStrip rawCmd else ""

/-- Line 186: is this invocation a commit event? -/
def recorderIsGitCommit (tn rawCmd : String) : Bool :=
  tn = "Bash" && strIn "git commit" (recorderCommand tn rawCmd)

/-- Model of `main()` of the Event Recorder, for a set project directory. -/
def recorderMain (pd tm tn rawCmd fp ts : String) (lc dc : ProcResult)
    (dirty : List String) :
    Except Unit (List (String × String) × Option SessionEvent) :=
  if tm = "gitmode" && !(recorderIsGitCommit tn rawCmd) then
    .ok (loadExisting dirty, none)
  else
    match classifyFiles pd tn (recorderCommand tn rawCmd) fp lc dc
        (recorderIsGitCommit tn rawCmd) with
    | .error e => .error e
    | .ok fc => .ok (recorderCore pd tn (recorderCommand tn rawCmd) ts dirty fc)

theorem mem_dkeys_mergeOne (ctx : Option CommitContext)
    (d : List (String × String)) (fp x : String)
    (hx : x ∈ dkeys (mergeOne ctx d fp)) : x ∈ dkeys d ∨ x = fp := by
  cases ctx with
  | some c => exact mem_dkeys_dinsert fp (formatLine fp c) x d hx
  | none =>
    simp only [mergeOne] at hx
    by_cases h : (dlookup fp d).isSome = true
    · rw [if_pos h] at hx
      exact Or.inl hx
    · rw [if_neg h] at hx
      exact mem_dkeys_dinsert fp fp x d hx

theorem mem_dkeys_mergeAux (ctx : Option CommitContext) (t : List String)
    (d : List (String × String)) (x : String)
    (hx : x ∈ dkeys (mergeAux ctx d t)) : x ∈ dkeys d ∨ x ∈ t := by
  induction t generalizing d with
  | nil => exact Or.inl (by simpa [mergeAux] using hx)
  | cons fp rest ih =>
    simp only [mergeAux] at hx
    rcases ih _ hx with h1 | h1
    · rcases mem_dkeys_mergeOne ctx d fp x h1 with h2 | h2
      · exact Or.inl h2
      · exact Or.inr (by simp [h2])
    · exact Or.inr (by simp [h1])

theorem mem_dkeys_recorderStore (pd : String) (dirty : List String)
    (fc : List String × Option CommitContext) (p : String)
    (hp : p ∈ dkeys (recorderStore pd dirty fc)) :
    p ∈ dkeys (loadExisting dirty) ∨ should_track p pd = true := by
  simp only [recorderStore] at hp
  split at hp
  · exact Or.inl hp
  · split at hp
    · exact Or.inl hp
    · rcases mem_dkeys_mergeAux fc.2 _ _ p hp with h1 | h1
      · exact Or.inl h1
      · exact Or.inr (List.mem_filter.mp h1).2

/-- Modelled from the spec's words for C7: the claimed filter rejects paths
outside projectRoot, paths with ANY segment equal to the state-directory
name `.claude`, and paths whose base name is `CLAUDE.md`. -/
def specPathFilter (p root : String) : Bool :=
  insideRoot p root
    && (pathParts p).all (fun seg => seg != ".claude")
    && pathName p != "CLAUDE.md"

/-- The filter the code actually enforces, stated spec-style: containment
in the project root, FIRST segment of the root-relative path not
`.claude`, base name not `CLAUDE.md`. -/
def specFilterFirstSeg (p root : String) : Bool :=
  insideRoot p root
    && (match (pathParts p).drop (pathParts root).length with
        | [] => true
        | seg :: _ => seg != ".claude")
    && pathName p != "CLAUDE.md"

theorem should_track_eq_firstSeg (q root : String) :
    should_track q root = specFilterFirstSeg q root := by
  simp only [should_track, specFilterFirstSeg]
  cases hc : insideRoot q root <;> simp [hc, Bool.and_assoc]

/-- C7 counterexample: the path `/proj/sub/.claude/x.txt` has a segment
equal to the state-directory name, so the claimed filter rejects it, yet
`should_track` accepts it (only the first relative segment is checked)
and an Edit invocation persists it to the dirty store. -/
theorem stateDir_nested_path_is_tracked :
    should_track "/proj/sub/.claude/x.txt" "/proj" = true ∧
    specPathFilter "/proj/sub/.claude/x.txt" "/proj" = false ∧
    recorderMain "/proj" "default" "Edit" "" "/proj/sub/.claude/x.txt" "t0"
      .failure .failure [] =
      .ok ([("/proj/sub/.claude/x.txt", "/proj/sub/.claude/x.txt")],
        some { toolName := "Edit", timestamp := "t0",
               filePath := some "/proj/sub/.claude/x.txt", command := none }) :=
  ⟨rfl, rfl, rfl⟩

/-- C7 amended — every path persisted by an Event Recorder invocation
either was already present in the store or passed `should_track`; and the
filter `should_track` checks containment in the project root, the FIRST
segment of the root-relative path against the state-directory name, and
the base name against `CLAUDE.md` (not every segment). -/
theorem persisted_paths_pass_filter (pd tm tn rawCmd fp ts : String)
    (lc dc : ProcResult) (dirty : List String)
    (store1 : List (String × String)) (ev : Option SessionEvent)
    (h : recorderMain pd tm tn rawCmd fp ts lc dc dirty = .ok (store1, ev)) :
    (∀ p, p ∈ dkeys store1 →
      p ∈ dkeys (loadExisting dirty) ∨ should_track p pd = true) ∧
    (∀ q root, should_track q root = specFilterFirstSeg q root) := by
  refine ⟨?_, fun q root => should_track_eq_firstSeg q root⟩
  intro p hp
  simp only [recorderMain] at h
  split at h
  · simp only [Except.ok.injEq, Prod.mk.injEq] at h
    exact Or.inl (h.1 ▸ hp)
  · cases hcl : classifyFiles pd tn (recorderCommand tn rawCmd) fp lc dc
        (recorderIsGitCommit tn rawCmd) with
    | error e => rw [hcl] at h; cases h
    | ok fc =>
      rw [hcl] at h
      simp only [Except.ok.injEq, recorderCore, Prod.mk.injEq] at h
      exact mem_dkeys_recorderStore pd dirty fc p (h.1 ▸ hp)

/-- Witness for C7 amended at a concrete invocation: an Edit of
`/proj/src/x.py` over an empty store persists only paths that pass the
filter. -/
theorem persisted_paths_pass_filter_w :
    (∀ p, p ∈ dkeys [("/proj/src/x.py", "/proj/src/x.py")] →
      p ∈ dkeys (loadExisting []) ∨ should_track p "/proj" = true) ∧
    (∀ q root, should_track q root = specFilterFirstSeg q root) :=
  persisted_paths_pass_filter "/proj" "default" "Edit" "" "/proj/src/x.py"
    "t0" .failure .failure [] [("/proj/src/x.py", "/proj/src/x.py")]
    (some { toolName := "Edit", timestamp := "t0",
            filePath := some "/proj/src/x.py", command := none }) rfl

/-- C8 — the Bash command `rm -f a.txt b.txt && echo done` yields dirty
entries for exactly `a.txt` and `b.txt` resolved against the project
root: non-flag tokens are collected and extraction stops at the first
shell control operator. -/
theorem rm_extraction_exact :
    extract_files_from_bash "rm -f a.txt b.txt && echo done" "/proj" =
      ["/proj/a.txt", "/proj/b.txt"] ∧
    recorderMain "/proj" "default" "Bash" "rm -f a.txt b.txt && echo done"
      "" "t0" .failure .failure [] =
      .ok ([("/proj/a.txt", "/proj/a.txt"), ("/proj/b.txt", "/proj/b.txt")],
        some { toolName := "Bash", timestamp := "t0", filePath := none,
               command := some "rm -f a.txt b.txt && echo done" }) :=
  ⟨rfl, rfl⟩

/-- C6 counterexample: when the first git subprocess call raises (git not
available or a timeout-free hang interrupted), `handle_git_commit` has no
`try`/`except`, so the whole invocation errors instead of degrading; and
the git calls pass no timeout at all. -/
theorem git_raise_propagates :
    handle_git_commit "/proj" .raised .raised = .error () ∧
    recorderMain "/proj" "default" "Bash" "git commit -m msg" "" "t0"
      .raised .raised ["old.txt"] = .error () ∧
    gitCallTimeout = none :=
  ⟨rfl, rfl, rfl⟩

/-- C6 amended — a CAPTURED git failure (non-zero exit) degrades the
commit path to no context or partial context and does not raise, but a
raised subprocess exception propagates out of the invocation, and the
git calls are made without any timeout bound. -/
theorem git_failure_degrades (pd : String) (logCall diffCall : ProcResult)
    (h1 : logCall ≠ ProcResult.raised) (h2 : diffCall ≠ ProcResult.raised) :
    isOkE (handle_git_commit pd logCall diffCall) = true ∧
    handle_git_commit pd .failure diffCall = .ok ([], none) ∧
    (∀ dc2, handle_git_commit pd .raised dc2 = .error ()) ∧
    gitCallTimeout = none := by
  refine ⟨?_, rfl, fun dc2 => rfl, rfl⟩
  cases logCall with
  | raised => exact absurd rfl h1
  | failure => rfl
  | success out =>
    cases diffCall with
    | raised => exact absurd rfl h2
    | failure => rfl
    | success out2 => rfl

/-- Witness for C6 amended at concrete call outcomes. -/
theorem git_failure_degrades_w :
    isOkE (handle_git_commit "/proj" (.success "abc fix") .failure) = true ∧
    handle_git_commit "/proj" .failure .failure = .ok ([], none) ∧
    (∀ dc2, handle_git_commit "/proj" .raised dc2 = .error ()) ∧
    gitCallTimeout = none :=
  git_failure_degrades "/proj" (.success "abc fix") .failure
    (by decide) (by decide)

/-- C9 counterexample: a Bash invocation with the read-only command
`git status` is a real Event Recorder invocation, yet no session event is
appended (the early return for "no candidate path" fires before the
event write). -/
theorem readonly_bash_appends_no_event :
    recorderMain "/proj" "default" "Bash" "git status" "" "t0"
      .failure .failure [] = .ok ([], none) :=
  rfl

/-- C9 amended — a session event is appended exactly when the invocation
produced at least one trackable path (at most one event per invocation is
structural: a single conditional append); when appended, the event
carries the tool name and the given timestamp, and any recorded command
string is truncated to at most 200 characters. -/
theorem event_iff_trackable (pd tn command ts : String)
    (fc : List String × Option CommitContext) :
    ((recorderEvent pd tn command ts fc).isSome = true ↔
      fc.1.filter (fun f => should_track f pd) ≠ []) ∧
    (∀ e, recorderEvent pd tn command ts fc = some e →
      e.toolName = tn ∧ e.timestamp = ts ∧
      (∀ cs, e.command = some cs → cs.data.length ≤ 200)) := by
  constructor
  · constructor
    · intro hs
      simp only [recorderEvent] at hs
      split at hs
      · simp at hs
      · split at hs
        · simp at hs
        · rename_i h1 h2
          exact h2
    · intro hne
      simp only [recorderEvent]
      by_cases h1 : fc.1 = []
      · exact absurd (by simp [h1]) hne
      · rw [if_neg h1]
        by_cases h2 : fc.1.filter (fun f => should_track f pd) = []
        · exact absurd h2 hne
        · rw [if_neg h2]
          rfl
  · intro e he
    simp only [recorderEvent] at he
    split at he
    · cases he
    · split at he
      · cases he
      · rw [← Option.some.inj he]
        refine ⟨rfl, rfl, ?_⟩
        intro cs hcs
        simp only at hcs
        split at hcs
        · rw [← Option.some.inj hcs]
          exact List.length_take_le 200 command.data
        · cases hcs

/-- Witness for C9 amended: an Edit invocation with one trackable path
appends an event. -/
theorem event_iff_trackable_w :
    (recorderEvent "/proj" "Edit" "" "t0" (["/proj/src/x.py"], none)).isSome
      = true :=
  (event_iff_trackable "/proj" "Edit" "" "t0"
    (["/proj/src/x.py"], none)).1.mpr (by decide)

/-! ## Turn Gate (src/hooks/stop.py)

The gate's persistent state is the latch marker, the dirty-file lines and
the (parsed) session-event log.  `main` returns immediately when the
project directory is unset or the latch exists; otherwise it creates the
latch FIRST, then reads stdin (the parsed payload is never used — the
embedding therefore takes the raw stdin text and ignores it), gathers the
dirty files and events, always prints one block decision, and clears both
buffers.  The decision's `reason` is a fixed-format interpolation of the
fields kept structured here (prompt wording is out of scope). -/

/-- Persistent per-session state the stop hook reads and writes. -/
structure StopState where
  latch : Bool
  dirty : List String
  events : List SessionEvent
deriving DecidableEq

/-- The block decision printed by the stop hook, with the interpolated
components of its `reason` string kept as fields. -/
structure Decision where
  decision : String
  projectName : String
  filesList : String
  eventCount : Nat
  eventsJson : List SessionEvent
  suppressOutput : Bool
deriving DecidableEq

/-- Line 34: the dirty-file lines, stripped, blanks dropped, first 5 kept. -/
def gatherFiles (lines : List String) : List String :=
  ((lines.map pyStrip).filter (fun f => f ≠ "")).take 5

/-- Line 52: the events serialized into the decision — `events[:50]`. -/
def consumedEvents (events : List SessionEvent) : List SessionEvent :=
  events.take 50

/-- Model of `main()` of the stop hook: given the project directory, the
raw stdin text and the state, produce the new state and the optional
printed decision. -/
def runStop (projectDir _stdin : String) (st : StopState) :
    StopState × Option Decision :=
  if projectDir = "" then (st, none)
  else if st.latch then (st, none)
  else
    let files := gatherFiles st.dirty
    let out : Decision :=
      { decision := "block",
        projectName := pathName projectDir,
        filesList := if files = [] then "none" else joinWith ", " files,
        eventCount := st.events.length,
        eventsJson := consumedEvents st.events,
        suppressOutput := true }
    ({ latch := true, dirty := [], events := [] }, some out)

/-- C1 counterexample: with the latch unset and an empty dirty set, the
stop hook still prints a decision — `main` has no emptiness check before
building and printing the output. -/
theorem stop_empty_dirty_emits_output :
    ((runStop "/proj" "" { latch := false, dirty := [], events := [] }).2).isSome
      = true :=
  rfl

/-- C1 amended — when the latch is unset, the Turn Gate emits a block
decision even though the dirty set is empty, reporting the modified-files
list as "none"; no output happens only when the latch is already set or
the project directory is unset. -/
theorem stop_empty_dirty_blocks (pd stdin : String)
    (events : List SessionEvent) (h : pd ≠ "") :
    (runStop pd stdin { latch := false, dirty := [], events := events }).2 =
      some { decision := "block", projectName := pathName pd,
             filesList := "none", eventCount := events.length,
             eventsJson := consumedEvents events, suppressOutput := true } := by
  simp [runStop, h, gatherFiles]

/-- Witness for C1 amended at a concrete project and empty state. -/
theorem stop_empty_dirty_blocks_w :
    (runStop "/proj" "" { latch := false, dirty := [], events := [] }).2 =
      some { decision := "block", projectName := pathName "/proj",
             filesList := "none", eventCount := ([] : List SessionEvent).length,
             eventsJson := consumedEvents [], suppressOutput := true } :=
  stop_empty_dirty_blocks "/proj" "" [] (by decide)

/-- C2 — the blocking decision fires at most once per session: with the
latch unset and a non-empty dirty set, the first invocation emits a block
decision and clears both buffers; an immediately following invocation
produces no output and no state change even though the dirty set was
non-empty before the first call and empty after. -/
theorem latch_fires_once (pd s1 s2 : String) (dirty : List String)
    (events : List SessionEvent) (hpd : pd ≠ "")
    (hne : gatherFiles dirty ≠ []) :
    ((runStop pd s1 ⟨false, dirty, events⟩).2.map Decision.decision
        = some "block") ∧
    (runStop pd s1 ⟨false, dirty, events⟩).1.dirty = [] ∧
    (runStop pd s1 ⟨false, dirty, events⟩).1.events = [] ∧
    runStop pd s2 (runStop pd s1 ⟨false, dirty, events⟩).1 =
      ((runStop pd s1 ⟨false, dirty, events⟩).1, none) := by
  refine ⟨?_, ?_, ?_, ?_⟩ <;> simp [runStop, hpd]

/-- Witness for C2 at a concrete one-file dirty set. -/
theorem latch_fires_once_w :
    ((runStop "/proj" "" ⟨false, ["x.txt"], []⟩).2.map Decision.decision
        = some "block") ∧
    (runStop "/proj" "" ⟨false, ["x.txt"], []⟩).1.dirty = [] ∧
    (runStop "/proj" "" ⟨false, ["x.txt"], []⟩).1.events = [] ∧
    runStop "/proj" "" (runStop "/proj" "" ⟨false, ["x.txt"], []⟩).1 =
      ((runStop "/proj" "" ⟨false, ["x.txt"], []⟩).1, none) :=
  latch_fires_once "/proj" "" "" ["x.txt"] [] (by decide) (by decide)

/-- Lexicographic (code-point) comparison of character lists. -/
def chLe : List Char → List Char → Bool
  | [], _ => true
  | _ :: _, [] => false
  | a :: l1, b :: l2 =>
    if a = b then chLe l1 l2 else decide (a.toNat < b.toNat)

/-- Modelled from the spec's words for C4: is the list of path strings in
lexicographically sorted (non-decreasing) order? -/
def lexSorted : List String → Bool
  | [] => true
  | [_] => true
  | a :: b :: rest => chLe a.data b.data && lexSorted (b :: rest)

/-- A 25-line dirty store with distinct paths not in sorted order (the
lexicographically largest line arrives first). -/
def dirty25 : List String :=
  ["z", "a", "b", "c", "d", "e", "f", "g", "h", "i", "j", "k", "l", "m",
   "n", "o", "p", "q", "r", "s", "t", "u", "v", "w", "x"]

/-- C4 counterexample: with 25 distinct stored paths the gathered report
is the first five lines in file order — not lexicographically sorted
(and the cap is 5, not 20). -/
theorem gather_not_sorted_25 :
    dirty25.length = 25 ∧ dirty25.Nodup ∧
    gatherFiles dirty25 = ["z", "a", "b", "c", "d"] ∧
    lexSorted (gatherFiles dirty25) = false := by
  refine ⟨rfl, ?_, rfl, rfl⟩
  decide

/-- C4 amended — the read returns the first 5 nonempty stripped lines in
the store's insertion order (a cap of 5, not 20, and no sorting), and
after the invocation the store is cleared, so a second read returns the
empty set. -/
theorem gather_cap5_and_clear (pd stdin : String) (dirty : List String)
    (events : List SessionEvent) (h : pd ≠ "") :
    (gatherFiles dirty).length ≤ 5 ∧
    (∃ rest, (dirty.map pyStrip).filter (fun f => f ≠ "") =
      gatherFiles dirty ++ rest) ∧
    gatherFiles ((runStop pd stdin ⟨false, dirty, events⟩).1.dirty) = [] := by
  refine ⟨List.length_take_le 5 _, ⟨_, (List.take_append_drop 5 _).symm⟩, ?_⟩
  simp [runStop, h, gatherFiles]

/-- Witness for C4 amended at the 25-line store. -/
theorem gather_cap5_and_clear_w :
    (gatherFiles dirty25).length ≤ 5 ∧
    (∃ rest, (dirty25.map pyStrip).filter (fun f => f ≠ "") =
      gatherFiles dirty25 ++ rest) ∧
    gatherFiles ((runStop "/proj" "" ⟨false, dirty25, []⟩).1.dirty) = [] :=
  gather_cap5_and_clear "/proj" "" dirty25 [] (by decide)

/-- Modelled from the spec's words for C5: the most recent 50 events of
the log, oldest first. -/
def specMostRecent50 (events : List SessionEvent) : List SessionEvent :=
  events.drop (events.length - 50)

/-- A 51-event log: one old distinguished event, then 50 newer ones. -/
def events51 : List SessionEvent :=
  { toolName := "Edit", timestamp := "t0" } ::
    List.replicate 50 { toolName := "Bash", timestamp := "t1" }

/-- C5 counterexample: with 51 buffered events the hook serializes
`events[:50]`, the OLDEST fifty, not the most recent fifty the claim
describes; the reported count stays the uncapped 51. -/
theorem consumed_oldest_not_recent :
    events51.length = 51 ∧
    (runStop "/proj" "" ⟨false, ["x.txt"], events51⟩).2.map Decision.eventsJson
      = some (consumedEvents events51) ∧
    consumedEvents events51 ≠ specMostRecent50 events51 ∧
    (runStop "/proj" "" ⟨false, ["x.txt"], events51⟩).2.map Decision.eventCount
      = some 51 := by
  refine ⟨rfl, rfl, ?_, rfl⟩
  decide

/-- C5 amended — consumption is capped to the FIRST (oldest) 50 events, a
prefix of the log in arrival order; events beyond the first 50 never
reach the serialized list, and the decision reports the uncapped count. -/
theorem consumed_events_cap (pd stdin : String) (dirty : List String)
    (events : List SessionEvent) (h : pd ≠ "") :
    (consumedEvents events).length ≤ 50 ∧
    (∃ rest, events = consumedEvents events ++ rest) ∧
    (runStop pd stdin ⟨false, dirty, events⟩).2.map Decision.eventsJson
      = some (consumedEvents events) ∧
    (runStop pd stdin ⟨false, dirty, events⟩).2.map Decision.eventCount
      = some events.length := by
  refine ⟨List.length_take_le 50 _, ⟨_, (List.take_append_drop 50 _).symm⟩,
    ?_, ?_⟩ <;> simp [runStop, h]

/-- Witness for C5 amended at the 51-event log. -/
theorem consumed_events_cap_w :
    (consumedEvents events51).length ≤ 50 ∧
    (∃ rest, events51 = consumedEvents events51 ++ rest) ∧
    (runStop "/proj" "" ⟨false, [], events51⟩).2.map Decision.eventsJson
      = some (consumedEvents events51) ∧
    (runStop "/proj" "" ⟨false, [], events51⟩).2.map Decision.eventCount
      = some events51.length :=
  consumed_events_cap "/proj" "" [] events51 (by decide)

/-- C10 — the latch is set before anything is read: after a first
invocation with ANY stdin text (malformed included — the parsed payload
is never used) and any dirty/event contents, the latch is set; and any
invocation that finds the latch set returns the state unchanged with no
output, regardless of dirty entries accumulated since the first call. -/
theorem latch_set_first_and_final (pd stdin : String) (st : StopState)
    (dirty : List String) (events : List SessionEvent) (hpd : pd ≠ "")
    (hlatch : st.latch = true) :
    (runStop pd stdin ⟨false, dirty, events⟩).1.latch = true ∧
    runStop pd stdin st = (st, none) := by
  constructor
  · simp [runStop, hpd]
  · simp [runStop, hlatch]

/-- Witness for C10: malformed stdin and empty dirty set still set the
latch, and a latched state with new dirty entries is returned unchanged. -/
theorem latch_set_first_and_final_w :
    (runStop "/proj" "this is not json" ⟨false, [], []⟩).1.latch = true ∧
    runStop "/proj" "this is not json" ⟨true, ["y.txt"], []⟩ =
      (⟨true, ["y.txt"], []⟩, none) :=
  latch_set_first_and_final "/proj" "this is not json" ⟨true, ["y.txt"], []⟩
    [] [] (by decide) rfl
